import Mathlib

/-!
Verification of the DataGovIN Sentinel acquisition pipeline.

Shallow embedding of the governed-acquisition core of the repository
(`src/utils.js`, `src/governance.js`, `src/data-acquisition.js`,
`src/api-client.js`, `src/search-discovery.js`) together with theorems
settling the behavioural claims about it.

Modelling conventions, used throughout:
* JavaScript strings are `String`; `s.data` (the underlying `List Char`)
  is used for character-level operations.
* A JS field that may be `undefined` is modelled as `""` for strings
  (both are falsy and the source only uses such fields through `||`
  coalescing), as `Option _` for objects and numeric sizes.
* JS numbers appearing in backoff arithmetic are modelled as `ℚ`
  (exact arithmetic; the float rounding of the source is immaterial at
  the magnitudes involved), `Math.floor` as `Int.floor`.
* `Math.random()` is made explicit: the jitter factor
  `u = Math.random() * 2 - 1 ∈ [-1, 1)` is a parameter.
* Asynchronous remote calls are parameters of function type returning
  `Except String _`: a rejected promise / thrown error is `.error`.
-/

namespace DataGovIN

/-! ## JS coalescing and string helpers -/

/-- JS `a || b` for strings (`""`/`undefined` are falsy). -/
def jsOr (a b : String) : String := if a = "" then b else a

/-- JS `a || b` for non-negative numbers (`0`/`undefined` are falsy). -/
def jsOrNat (a b : Nat) : Nat := if a = 0 then b else a

/-- JS `s.includes(pat)`: `pat` occurs as a contiguous substring of `s`. -/
def strIncludes (s pat : String) : Bool := decide (pat.data <:+: s.data)

/-- JS `s.toLowerCase()` (the source only lowercases ASCII text). -/
def jsToLower (s : String) : String := ⟨s.data.map Char.toLower⟩

/-- JS `s.trim()` is nonempty, i.e. the truthiness-plus-trim test
`dataset[field] && dataset[field].toString().trim().length > 0`
of `calculateQualityScore` for string fields. -/
def nonBlank (s : String) : Bool := !(s.trim = "")

/-! ## `utils.js`: `truncateText`, `calculateBackoff` -/

/-- From `utils.js`, `truncateText`: `if (!text || text.length <= maxLength)
return text; return text.substring(0, maxLength) + '...'`
(an empty string falls into the length test with the same result). -/
def truncateText (text : String) (maxLength : Nat) : String :=
  if text.length ≤ maxLength then text else text.take maxLength ++ "..."

/-- From `utils.js`, `calculateBackoff(attempt, baseDelay, maxDelay)`:
`exponentialDelay = Math.min(baseDelay * Math.pow(2, attempt), maxDelay)`,
`jitter = exponentialDelay * 0.25 * (Math.random() * 2 - 1)`,
`return Math.floor(exponentialDelay + jitter)`.
The random draw is the explicit parameter `u ∈ [-1, 1)`. -/
def calculateBackoff (attempt : ℕ) (baseDelay maxDelay u : ℚ) : ℤ :=
  let exponentialDelay := min (baseDelay * 2 ^ attempt) maxDelay
  ⌊exponentialDelay + exponentialDelay * (1/4) * u⌋

/-! ## `utils.js`: the PII regexes of `detectPII` / `redactPII`

The source tests / globally replaces these JS regexes:
* `/\b\d{12}\b/`            (Aadhaar-like 12-digit run),
* `/\b[A-Z]{5}\d{4}[A-Z]\b/` (PAN pattern, detect only),
* `/\b[\w\.-]+@[\w\.-]+\.\w+\b/` (email),
* `/\b\d{10}\b/`            (phone-like 10-digit run),
* `/\b\d{3}-\d{2}-\d{4}\b/` (SSN-like, detect only).

They are embedded as executable matchers over `List Char` with JS
semantics: `\w = [A-Za-z0-9_]`, `\b` holds between two positions whose
word-characterness differs (string edges count as non-word), a global
replace takes successive leftmost matches, greedy with backtracking,
and resumes immediately after each match. -/

/-- JS `\w`: ASCII letters, digits, underscore. -/
def isWordChar (c : Char) : Bool := c.isAlphanum || c = '_'

/-- The character class `[\w\.-]` of the email regex. -/
def emailClass (c : Char) : Bool := isWordChar c || c = '.' || c = '-'

/-- The pattern `\b\d{n}\b` viewed from a start position: the next `n` characters
are digits and the character after them (if any) is not a word
character.  (The leading `\b` is the scanner's `!prevW` test, since a
digit is a word character.) -/
def digitRunBoundary (n : Nat) (l : List Char) : Bool :=
  ((l.take n).length = n) && (l.take n).all Char.isDigit &&
    (match l.drop n with
     | [] => true
     | d :: _ => !isWordChar d)

/-- The pattern `[A-Z]{5}\d{4}[A-Z]\b` viewed from a start position (the leading
`\b` is the scanner's `!prevW` test). -/
def panBoundary : List Char → Bool
  | a :: b :: c :: d :: e :: f :: g :: h :: i :: j :: rest =>
    a.isUpper && b.isUpper && c.isUpper && d.isUpper && e.isUpper &&
    f.isDigit && g.isDigit && h.isDigit && i.isDigit && j.isUpper &&
    (match rest with
     | [] => true
     | r :: _ => !isWordChar r)
  | _ => false

/-- The pattern `\d{3}-\d{2}-\d{4}\b` viewed from a start position (the leading
`\b` is the scanner's `!prevW` test). -/
def ssnBoundary : List Char → Bool
  | a :: b :: c :: h1 :: d :: e :: h2 :: f :: g :: h :: i :: rest =>
    a.isDigit && b.isDigit && c.isDigit && h1 = '-' &&
    d.isDigit && e.isDigit && h2 = '-' &&
    f.isDigit && g.isDigit && h.isDigit && i.isDigit &&
    (match rest with
     | [] => true
     | r :: _ => !isWordChar r)
  | _ => false

/-- Greedy backtracking of the `[\w\.-]+\.\w+\b` tail of the email
regex over the class run `R` after the `@`: the engine keeps the
longest class prefix `B = R.take d` that is followed by a literal `'.'`
and then at least one word character (so that `\w+` is nonempty; the
closing `\b` then holds automatically because a maximal `\w+` run
inside or at the end of a class run is always followed by a non-word
character or the end).  So: the largest `d ≥ 1` with `R[d] = '.'` and
`R[d+1]` a word character. -/
def findDot (R : List Char) : Option Nat :=
  (List.range R.length).reverse.find? fun d =>
    decide (1 ≤ d) && (R[d]? = some '.') &&
      (match R[d+1]? with
       | some w => isWordChar w
       | none => false)

/-- Attempt to match `/\b[\w\.-]+@[\w\.-]+\.\w+\b/` at the current
position (`prevW` = the previous character is a word character),
returning the length of the match.  The first `[\w\.-]+` needs no
backtracking: `'@'` is not in the class, so only the maximal class run
can be followed by `'@'`. -/
def tryEmailLen (prevW : Bool) (l : List Char) : Option Nat :=
  match l with
  | [] => none
  | c :: _ =>
    if emailClass c && (isWordChar c != prevW) then
      let A := l.takeWhile emailClass
      match l.drop A.length with
      | '@' :: rest =>
        let R := rest.takeWhile emailClass
        match findDot R with
        | some d =>
          let W := (R.drop (d+1)).takeWhile isWordChar
          some (A.length + 1 + (d + 1) + W.length)
        | none => none
      | _ => none
    else none

/-- One step of a global JS `String.replace(regex, fixed)` scan.
`skip` counts characters still belonging to the previous match (the
regex `lastIndex` semantics: scanning resumes right after a match);
`prevW` tracks whether the previous character of the *original* string
is a word character, for `\b`.  A matcher returns the match length and
the replacement text. -/
def replaceScan (tryM : Bool → List Char → Option (Nat × List Char)) :
    Nat → Bool → List Char → List Char
  | _, _, [] => []
  | Nat.succ skip, _, c :: cs => replaceScan tryM skip (isWordChar c) cs
  | 0, prevW, c :: cs =>
    match tryM prevW (c :: cs) with
    | some (len, repl) => repl ++ replaceScan tryM (len - 1) (isWordChar c) cs
    | none => c :: replaceScan tryM 0 (isWordChar c) cs

/-- JS `regex.test(s)`: some position carries a match. -/
def testScan (tryM : Bool → List Char → Bool) : Bool → List Char → Bool
  | prevW, [] => tryM prevW []
  | prevW, c :: cs => tryM prevW (c :: cs) || testScan tryM (isWordChar c) cs

/-- Matcher of `/\b\d{n}\b/` for the replacing scan; the replacement is
a run of `n` `'X'`s as in `redactPII`. -/
def tryDigits (n : Nat) (prevW : Bool) (l : List Char) :
    Option (Nat × List Char) :=
  if !prevW && digitRunBoundary n l then
    some (n, List.replicate n 'X')
  else none

/-- The fixed email replacement of `redactPII`. -/
def emailPlaceholder : List Char := "email@redacted.com".data

/-- Matcher of the email regex for the replacing scan. -/
def tryEmailRepl (prevW : Bool) (l : List Char) : Option (Nat × List Char) :=
  (tryEmailLen prevW l).map fun len => (len, emailPlaceholder)

/-- Boolean test matchers for `detectPII`. -/
def testDigitRun (n : Nat) : Bool → List Char → Bool :=
  fun prevW l => !prevW && digitRunBoundary n l

def testPAN : Bool → List Char → Bool :=
  fun prevW l => !prevW && panBoundary l

def testEmail : Bool → List Char → Bool :=
  fun prevW l => (tryEmailLen prevW l).isSome

def testSSN : Bool → List Char → Bool :=
  fun prevW l => !prevW && ssnBoundary l

/-- From `utils.js`, `detectPII(text)`: `if (!text) return false;` then
`patterns.some(p => p.test(text))` over the five patterns in source
order. -/
def detectPII (text : String) : Bool :=
  if text = "" then false
  else
    testScan (testDigitRun 12) false text.data ||
    testScan testPAN false text.data ||
    testScan testEmail false text.data ||
    testScan (testDigitRun 10) false text.data ||
    testScan testSSN false text.data

/-- From `utils.js`, `redactPII(text)`: `if (!text) return text;` then three
successive global replaces — `\b\d{12}\b → 'XXXXXXXXXXXX'`, the email
regex `→ 'email@redacted.com'`, `\b\d{10}\b → 'XXXXXXXXXX'`. -/
def redactPII (text : String) : String :=
  if text = "" then text
  else
    let r1 := replaceScan (tryDigits 12) 0 false text.data
    let r2 := replaceScan tryEmailRepl 0 false r1
    let r3 := replaceScan (tryDigits 10) 0 false r2
    ⟨r3⟩

/-! ## Data model: catalog items and attachments

Descriptor records as read from the remote catalog.  String fields that
may be `undefined` in JS are `""` (both falsy, only used through `||`);
`organization` is an optional object; numeric `size` and `score` are
optional.  `tags` entries are modelled as their name text (the source
accepts both plain strings and `{name}` objects and immediately
projects to the name). -/

structure Organization where
  title : String
  name : String
  deriving DecidableEq

structure Resource where
  id : String
  name : String
  description : String
  format : String
  url : String
  size : Option Nat
  created : String
  last_modified : String
  mimetype : String
  deriving DecidableEq

structure DatasetRaw where
  id : String
  name : String
  title : String
  notes : String
  description : String
  organization : Option Organization
  sector : String
  groups : List Organization
  tags : List String
  license_title : String
  license_id : String
  license : String
  maintainer : String
  author : String
  metadata_created : String
  metadata_modified : String
  num_resources : Option Nat
  resources : List Resource
  url : String
  score : Option ℚ
  deriving DecidableEq

/-- From `utils.js`, `calculateQualityScore(dataset)`: weighted completeness
sum.  `resources` scores when it is a nonempty array; every other field
scores when it is truthy and its `toString().trim()` is nonempty (for
an organization object `toString()` is `"[object Object]"`, always
nonblank; for a tag array it is the comma join of the entries). -/
def calculateQualityScore (ds : DatasetRaw) : Nat :=
  (if nonBlank ds.title then 10 else 0) +
  (if nonBlank ds.description then 15 else 0) +
  (if !ds.resources.isEmpty then 25 else 0) +
  (if ds.organization.isSome then 10 else 0) +
  (if nonBlank (String.intercalate "," ds.tags) then 10 else 0) +
  (if nonBlank ds.metadata_created then 5 else 0) +
  (if nonBlank ds.metadata_modified then 5 else 0) +
  (if nonBlank ds.license then 10 else 0) +
  (if nonBlank ds.maintainer then 5 else 0) +
  (if nonBlank ds.author then 5 else 0)

/-- Output shape of `utils.js` `formatDatasetMetadata`. -/
structure DatasetMetadata where
  id : String
  title : String
  description : String
  organization : String
  sector : String
  tags : List String
  license : String
  createdDate : String
  modifiedDate : String
  resourceCount : Nat
  url : String
  qualityScore : Nat
  deriving DecidableEq

/-- From `utils.js`, `formatDatasetMetadata(dataset)`, field by field with the
source's `||` defaulting (`?.` chains on `organization` / `groups[0]`
become `Option` matches). -/
def formatDatasetMetadata (ds : DatasetRaw) : DatasetMetadata where
  id := jsOr ds.id ds.name
  title := ds.title
  description := truncateText (jsOr ds.notes ds.description) 500
  organization :=
    match ds.organization with
    | some o => jsOr o.title (jsOr o.name "Unknown")
    | none => "Unknown"
  sector :=
    jsOr ds.sector
      (jsOr (match ds.groups.head? with
             | some g => g.title
             | none => "") "General")
  tags := ds.tags
  license := jsOr ds.license_title (jsOr ds.license_id "Not specified")
  createdDate := ds.metadata_created
  modifiedDate := ds.metadata_modified
  resourceCount := jsOrNat (ds.num_resources.getD 0) ds.resources.length
  url := jsOr ds.url ("https://data.gov.in/resource/" ++ ds.name)
  qualityScore := calculateQualityScore ds

/-! ## `governance.js`: the Governance Gate

The verdict-producing logic of `GovernanceLayer` (`checkRestrictions`,
`checkLicense`, `validateDatasetAccess`, `validateURL`,
`validateResourceDownload`).  The audit-log and blocked-set mutations
are write-only bookkeeping not consulted by any verdict and are not
modelled. -/

structure GovConfig where
  respectLicenses : Bool
  blockRestrictedData : Bool
  enableAuditLog : Bool
  piiDetection : Bool
  deriving DecidableEq

/-- The fixed keyword list of `checkRestrictions`, in source order. -/
def restrictedKeywords : List String :=
  ["internal-use", "restricted", "confidential", "classified",
   "private", "sensitive", "secret"]

/-- The text `checkRestrictions` scans:
`[title || '', description || notes || '', tags join ' ' || '']
 .join(' ').toLowerCase()`. -/
def datasetText (ds : DatasetRaw) : String :=
  jsToLower (ds.title ++ " " ++ jsOr ds.description ds.notes ++ " " ++
    String.intercalate " " ds.tags)

structure RestrictionCheck where
  allowed : Bool
  reason : String
  keyword : Option String
  deriving DecidableEq

/-- From `governance.js`, `checkRestrictions(dataset)`: the first keyword of
the fixed list contained in the combined lowercased text blocks. -/
def checkRestrictions (ds : DatasetRaw) : RestrictionCheck :=
  match restrictedKeywords.find? (fun k => strIncludes (datasetText ds) k) with
  | some k =>
    { allowed := false
      reason := "Dataset contains restricted content (keyword: '" ++ k ++
        "'). Access blocked per governance policy."
      keyword := some k }
  | none => { allowed := true, reason := "No restrictions found", keyword := none }

/-- The known-open licence allow-list of `checkLicense`. -/
def openLicenses : List String :=
  ["cc-by", "cc-by-4.0", "creative commons attribution", "cc0",
   "public domain", "odc-by", "odbl", "open government license"]

structure LicenseCheck where
  restrictive : Bool
  warning : String
  license : String
  requiresAttribution : Bool
  deriving DecidableEq

/-- From `governance.js`, `checkLicense(dataset)`.  In the non-restrictive
branch the source returns no `warning` field; it is `""` here (never
read in that case). -/
def checkLicense (ds : DatasetRaw) : LicenseCheck :=
  let license := jsOr ds.license_title ds.license_id
  let isOpenLicense := openLicenses.any fun ol => strIncludes (jsToLower license) ol
  if license = "" || jsToLower license = "not specified" then
    { restrictive := true
      warning := "No license specified. Use with caution. Attribution recommended."
      license := "Not specified"
      requiresAttribution := true }
  else if !isOpenLicense then
    { restrictive := true
      warning := "License '" ++ license ++ "' may have restrictions. Review terms before use."
      license := license
      requiresAttribution := true }
  else
    { restrictive := false
      warning := ""
      license := license
      requiresAttribution := strIncludes (jsToLower license) "cc-by" }

/-- The result object of `validateDatasetAccess`: `allowed`, accumulated
`warnings`/`errors`, and the three per-check compliance booleans. -/
structure Verdict where
  allowed : Bool
  warnings : List String
  errors : List String
  licenseCheckOK : Bool
  restrictionCheckOK : Bool
  piiCheckOK : Bool
  deriving DecidableEq

/-- From `governance.js`, `validateDatasetAccess(dataset)`: starts from an
all-true verdict; a restriction hit (only when `blockRestrictedData`)
flips `allowed` and records the reason as an error; a restrictive
licence (only when `respectLicenses`) records a warning and flips the
licence compliance bit but never `allowed`. -/
def validateDatasetAccess (cfg : GovConfig) (ds : DatasetRaw) : Verdict :=
  let rc := checkRestrictions ds
  let blocked := cfg.blockRestrictedData && !rc.allowed
  let lc := checkLicense ds
  let licenseFlagged := cfg.respectLicenses && lc.restrictive
  { allowed := !blocked
    warnings := if licenseFlagged then [lc.warning] else []
    errors := if blocked then [rc.reason] else []
    licenseCheckOK := !licenseFlagged
    restrictionCheckOK := !blocked
    piiCheckOK := true }

/-- Split a character list at the first `"://"`. -/
def breakScheme : List Char → Option (List Char × List Char)
  | [] => none
  | ':' :: '/' :: '/' :: rest => some ([], rest)
  | c :: cs => (breakScheme cs).map fun p => (c :: p.1, p.2)

/-- Modelled from the runtime: `new URL(url)` for the
`scheme://host[/:?#]...` shapes occurring here — the scheme before the
first `"://"` (plus `":"`, as JS `protocol`) and the host up to the
first `/ : ? #`.  Other URL forms are treated as parse failures. -/
def parseURL (url : String) : Option (String × String) :=
  match breakScheme url.data with
  | none => none
  | some ([], _) => none
  | some (scheme, rest) =>
    some (⟨scheme⟩ ++ ":",
      ⟨rest.takeWhile fun c => c != '/' && c != ':' && c != '?' && c != '#'⟩)

/-- The SSRF host denylist of `validateURL`. -/
def suspiciousHosts : List String :=
  ["localhost", "127.0.0.1", "0.0.0.0", "169.254.169.254"]

/-- From `governance.js`, `validateURL(url)` as `(safe, reason)`. -/
def validateURL (url : String) : Bool × Option String :=
  match parseURL url with
  | none => (false, some "Invalid URL")
  | some (protocol, hostname) =>
    if !(["http:", "https:"].contains protocol) then
      (false, some ("Unsafe protocol: " ++ protocol ++ ". Only HTTP/HTTPS allowed."))
    else if suspiciousHosts.any (fun h => strIncludes hostname h) then
      (false, some "Cannot access internal/localhost URLs for security reasons.")
    else (true, none)

structure DownloadValidation where
  allowed : Bool
  warnings : List String
  errors : List String
  deriving DecidableEq

/-- From `governance.js`, `validateResourceDownload(resource)`: warns (never
blocks) above 500 MB, blocks when the URL fails `validateURL`. -/
def validateResourceDownload (r : Resource) : DownloadValidation :=
  let warnings :=
    match r.size with
    | some n =>
      if n > 500 * 1024 * 1024 then
        ["Large file size (" ++ toString n ++ "). Consider streaming or chunked download."]
      else []
    | none => []
  if r.url != "" then
    match validateURL r.url with
    | (false, reason) =>
      { allowed := false, warnings := warnings, errors := [reason.getD ""] }
    | (true, _) => { allowed := true, warnings := warnings, errors := [] }
  else { allowed := true, warnings := warnings, errors := [] }

/-! ## `data-acquisition.js`: the Acquisition Engine

`DataAcquisition.acquireResource` and the attachment-selection loop of
`acquireDataset`.  The byte parser (`parseResourceData`) is the opaque
decoding collaborator; downloaded bytes are kept raw.  The
`formatBytes` rendering of the size string inside `reason` messages is
floating-point string formatting and is represented by the raw byte
counts. -/

def supportedFormats : List String :=
  ["csv", "json", "xml", "xls", "xlsx", "txt", "tsv"]

/-- Outcome record for one attachment (`formatResourceMetadata` copies
the descriptor fields verbatim; the whole descriptor is kept as
`metadata`). -/
structure ResourceOutcome where
  metadata : Resource
  acquired : Bool
  reason : Option String
  error : Option String
  data : Option (List Nat)
  deriving DecidableEq

/-- Observable remote effects of the acquisition path, for the
check-before-download claim: the byte download itself and a (would-be)
`validateResourceDownload` governance check. -/
inductive AcqEvent where
  | download (url : String)
  | safetyCheck (url : String)
  deriving DecidableEq

/-- From `data-acquisition.js`, `DataAcquisition.acquireResource` together with
the list of remote/governance events it performs: unsupported format
and oversize short-circuit without any event; otherwise, when byte
inclusion is requested and a URL is present, the bytes are downloaded
through `client.downloadResource` — with no preceding governance
check — and a download failure is captured in the outcome. -/
def acquireResource (maxFileSize : Nat) (includeData : Bool)
    (download : String → Except String (List Nat)) (r : Resource) :
    ResourceOutcome × List AcqEvent :=
  if !(supportedFormats.contains (jsToLower r.format)) then
    ({ metadata := r, acquired := false
       reason := some ("Format '" ++ jsToLower r.format ++ "' not supported for download")
       error := none, data := none }, [])
  else if (match r.size with
           | some n => decide (n > maxFileSize)
           | none => false) then
    ({ metadata := r, acquired := false
       reason := some ("File size (" ++ toString (r.size.getD 0) ++
         ") exceeds limit (" ++ toString maxFileSize ++ ")")
       error := none, data := none }, [])
  else if includeData && r.url != "" then
    (match download r.url with
     | .ok bytes =>
       { metadata := r, acquired := true, reason := none, error := none
         data := some bytes }
     | .error e =>
       { metadata := r, acquired := false, reason := none, error := some e
         data := none },
     [AcqEvent.download r.url])
  else
    ({ metadata := r, acquired := false
       reason := some "Data download not requested"
       error := none, data := none }, [])

/-- The per-attachment `catch` of `acquireDataset`'s loop: a thrown
per-resource error becomes `{...formatResourceMetadata(resource),
error, acquired: false}`. -/
def errorResourceOutcome (r : Resource) (e : String) : ResourceOutcome :=
  { metadata := r, acquired := false, reason := none, error := some e, data := none }

/-- One iteration of `acquireDataset`'s loop body, over an abstract
per-resource acquisition (`.error` = the awaited call threw). -/
def acquireStep (acquire : Resource → Except String ResourceOutcome)
    (r : Resource) : ResourceOutcome :=
  match acquire r with
  | .ok o => o
  | .error e => errorResourceOutcome r e

/-- The attachment-selection loop of `DataAcquisition.acquireDataset`:
`limit = Math.min(options.resourceLimit || this.resourceLimit,
resources.length)`, then one outcome per `resources[i]`, `i < limit`,
in order, each failure contained by the per-iteration `catch`.
`optLimit = 0` models both an absent and a zero `options.resourceLimit`
(both falsy in JS). -/
def acquireDatasetResources (cfgLimit optLimit : Nat)
    (acquire : Resource → Except String ResourceOutcome)
    (resources : List Resource) : List ResourceOutcome :=
  let limit := min (jsOrNat optLimit cfgLimit) resources.length
  (resources.take limit).map (acquireStep acquire)

/-! ## `search-discovery.js`: the Discovery Engine -/

/-- Output shape of `SearchDiscovery.formatResources` (per-resource
field projection; `modified` is the descriptor's `last_modified`). -/
structure FormattedResource where
  id : String
  name : String
  description : String
  format : String
  url : String
  size : Option Nat
  created : String
  modified : String
  mimetype : String
  deriving DecidableEq

/-- From `search-discovery.js`, `SearchDiscovery.formatResources`. -/
def formatResources (rs : List Resource) : List FormattedResource :=
  rs.map fun r =>
    { id := r.id, name := r.name, description := r.description
      format := r.format, url := r.url, size := r.size
      created := r.created, modified := r.last_modified
      mimetype := r.mimetype }

/-- One record of `searchByIds`'s output: either the formatted
descriptor or the per-id error record `{id, error, success: false}`. -/
inductive IdRecord where
  | found (meta : DatasetMetadata) (resources : List FormattedResource)
  | failed (id : String) (error : String)
  deriving DecidableEq

/-- The loop body of `SearchDiscovery.searchByIds`: one
`packageShow` per id, its failure caught into a per-id error record. -/
def searchOneById (fetch : String → Except String DatasetRaw)
    (id : String) : IdRecord :=
  match fetch id with
  | .ok ds => .found (formatDatasetMetadata ds) (formatResources ds.resources)
  | .error e => .failed id e

/-- From `search-discovery.js`, `SearchDiscovery.searchByIds` (an empty id list yields
`[]`, as in the source's early return). -/
def searchByIds (fetch : String → Except String DatasetRaw)
    (ids : List String) : List IdRecord :=
  ids.map (searchOneById fetch)

/-! ### `SearchDiscovery.search`: pagination loop and result assembly -/

/-- Facet data of a raw `package_search` response (only its presence
travels through the claim; the items are name/count pairs). -/
structure FacetItem where
  name : String
  count : Nat
  deriving DecidableEq

structure Facets where
  organization : Option (List FacetItem)
  groups : Option (List FacetItem)
  tags : Option (List FacetItem)
  res_format : Option (List FacetItem)
  deriving DecidableEq

/-- One `package_search` page: declared total `count`, the page's
items, facet data. -/
structure SearchPage where
  count : Nat
  results : List DatasetRaw
  facets : Facets
  deriving DecidableEq

/-- The relevance filter of the pagination loop:
`const score = dataset.score || 1.0; return score >= threshold`. -/
def relevanceKeeps (threshold : ℚ) (ds : DatasetRaw) : Bool :=
  let score : ℚ := match ds.score with
    | some s => if s = 0 then 1 else s
    | none => 1
  decide (threshold ≤ score)

/-- One formatted entry of `search`'s `formattedResults`. -/
structure SearchResultItem where
  meta : DatasetMetadata
  relevanceScore : ℚ
  resources : List FormattedResource
  deriving DecidableEq

/-- The result object `search` hands back (success or the `catch`'s
failure shape). -/
structure SearchOutcome where
  success : Bool
  error : Option String
  results : List SearchResultItem
  count : Nat
  deriving DecidableEq

/-- The `while (results.length < maxResults)` pagination loop of
`SearchDiscovery.search`.  The remote catalog is the abstract
`client : rows → start → page` (the query/filter/sort/facet parameters
of `packageSearch` are fixed for the whole loop and are closed over by
`client`).  `fuel` bounds the iteration count: the source loop has no
intrinsic bound when the remote keeps answering full pages of
below-threshold items, so the embedding makes termination explicit;
exhausted fuel returns the state reached so far. -/
def searchLoop (client : Nat → Nat → SearchPage) (threshold : ℚ)
    (maxResults : Nat) :
    Nat → List DatasetRaw → Nat → Nat → List DatasetRaw × Nat
  | 0, results, _, totalFound => (results, totalFound)
  | Nat.succ fuel, results, start, totalFound =>
    if results.length < maxResults then
      let rows := min 100 (maxResults - results.length)
      let page := client rows start
      let totalFound' := page.count
      if page.results.isEmpty then (results, totalFound')
      else
        let relevant := page.results.filter (relevanceKeeps threshold)
        let results' := results ++ relevant
        if page.results.length < rows || totalFound' ≤ results'.length then
          (results', totalFound')
        else
          searchLoop client threshold maxResults fuel results' (start + rows) totalFound'
    else (results, totalFound)

/-- The failure object produced by `search`'s `catch` block. -/
def searchFailure (e : String) : SearchOutcome :=
  { success := false, error := some e, results := [], count := 0 }

/-- From `search-discovery.js`, `SearchDiscovery.search` after query
normalisation.  The loop runs and `formattedResults` is computed, but
the returned object then evaluates
`this.processFacets(searchResult.facets || {})` — and `searchResult`
is a `const` declared *inside* the `while` block, so the reference
after the loop throws `ReferenceError: searchResult is not defined`,
which the surrounding `catch` converts into the failure object.  Every
call therefore produces the `catch` result. -/
def search (client : Nat → Nat → SearchPage) (threshold : ℚ)
    (maxResults fuel : Nat) : SearchOutcome :=
  let loopOut := searchLoop client threshold maxResults fuel [] 0 0
  let formattedResults :=
    (loopOut.1.take maxResults).map fun ds =>
      { meta := formatDatasetMetadata ds
        relevanceScore :=
          match ds.score with
          | some s => if s = 0 then 1 else s
          | none => 1
        resources := formatResources ds.resources : SearchResultItem }
  let _ := formattedResults
  searchFailure "searchResult is not defined"

/-! ## Verification fixtures

Concrete configurations, items and attachments used by the witnesses
and counterexamples below. -/

/-- Word characters that are not digits: the letter shapes usable in the
local part, domain and TLD of a simple email. -/
def plainLetter (ch : Char) : Bool := isWordChar ch && !ch.isDigit

/-- A blank catalog item; fixtures override the relevant fields. -/
def emptyDatasetRaw : DatasetRaw where
  id := ""
  name := ""
  title := ""
  notes := ""
  description := ""
  organization := none
  sector := ""
  groups := []
  tags := []
  license_title := ""
  license_id := ""
  license := ""
  maintainer := ""
  author := ""
  metadata_created := ""
  metadata_modified := ""
  num_resources := none
  resources := []
  url := ""
  score := none

/-- An attachment whose URL targets the cloud-metadata endpoint that
`validateURL` is designed to block. -/
def metadataEndpointResource : Resource where
  id := "r-meta"
  name := "cloud metadata"
  description := ""
  format := "CSV"
  url := "http://169.254.169.254/latest/meta-data"
  size := none
  created := ""
  last_modified := ""
  mimetype := ""

/-- All governance features enabled (the constructor defaults). -/
def fullGov : GovConfig where
  respectLicenses := true
  blockRestrictedData := true
  enableAuditLog := true
  piiDetection := true

/-- A description containing "confidential" next to an earlier-listed
keyword. -/
def restrictedConfidentialDataset : DatasetRaw :=
  { emptyDatasetRaw with description := "restricted confidential data" }

/-- A plainly confidential item; the governance flags other than
restriction blocking are all off, exhibiting "regardless of the licence
and PII feature-flag settings". -/
def confidentialDataset : DatasetRaw :=
  { emptyDatasetRaw with description := "this is confidential data" }

def blockOnlyGov : GovConfig where
  respectLicenses := false
  blockRestrictedData := true
  enableAuditLog := false
  piiDetection := false

/-- A populated catalog item for the good id. -/
def goodDataset : DatasetRaw :=
  { emptyDatasetRaw with
    id := "good-id"
    title := "Crop production statistics"
    notes := "District-wise crop production"
    license_title := "CC-BY-4.0"
    resources := [{ id := "res-1", name := "data", description := "", format := "CSV"
                    url := "https://data.gov.in/files/data.csv", size := some 1024
                    created := "2024-01-01", last_modified := "2024-06-01"
                    mimetype := "text/csv" }] }

/-- The spec's two-id batch: the first id resolves, the second fails. -/
def fetchExample (id : String) : Except String DatasetRaw :=
  if id = "good-id" then .ok goodDataset else .error "Resource not found."

def noLicenseWarning : String :=
  "No license specified. Use with caution. Attribution recommended."

/-- An unlicensed but unrestricted item. -/
def unlicensedDataset : DatasetRaw :=
  { emptyDatasetRaw with
    title := "Rainfall data"
    description := "Monthly rainfall by district" }

/-- Five attachments in declared order. -/
def demoResources : List Resource :=
  ["a1", "a2", "a3", "a4", "a5"].map fun i =>
    { id := i, name := "file-" ++ i, description := "", format := "CSV"
      url := "https://data.gov.in/files/" ++ i ++ ".csv", size := some 10
      created := "", last_modified := "", mimetype := "" }

/-- A per-resource acquisition that always succeeds. -/
def acquireAlwaysOk : Resource → Except String ResourceOutcome := fun r =>
  .ok { metadata := r, acquired := true, reason := none, error := none
        data := none }

/-- A per-resource acquisition whose second attachment fails. -/
def acquireFailingSecond : Resource → Except String ResourceOutcome := fun r =>
  if r.id = "a2" then .error "network down"
  else .ok { metadata := r, acquired := true, reason := none, error := none
             data := none }

/-! ## Shared verification lemmas -/

theorem strIncludes_eq_true_iff {s pat : String} :
    strIncludes s pat = true ↔ pat.data <:+: s.data :=
  decide_eq_true_iff

/-- A case-stable pattern contained in an item's description is
contained in the combined lowercased restriction-check text. -/
theorem strIncludes_datasetText_of_description {ds : DatasetRaw} {pat : String}
    (hfix : pat.data.map Char.toLower = pat.data)
    (h : strIncludes ds.description pat = true) :
    strIncludes (datasetText ds) pat = true := by
  rw [strIncludes_eq_true_iff] at h ⊢
  by_cases hd : ds.description = ""
  · rw [hd] at h
    rw [List.infix_nil.mp h]
    exact List.nil_infix
  · show pat.data <:+:
      ((ds.title ++ " " ++ jsOr ds.description ds.notes ++ " " ++
        String.intercalate " " ds.tags).data.map Char.toLower)
    rw [show jsOr ds.description ds.notes = ds.description from if_neg hd]
    have hdata : (ds.title ++ " " ++ ds.description ++ " " ++
        String.intercalate " " ds.tags).data
        = ds.title.data ++ " ".data ++ ds.description.data ++ " ".data ++
          (String.intercalate " " ds.tags).data := rfl
    rw [hdata]
    simp only [List.map_append]
    have h2 : pat.data <:+: ds.description.data.map Char.toLower := by
      rw [← hfix]; exact h.map Char.toLower
    refine h2.trans ?_
    exact ⟨ds.title.data.map Char.toLower ++ " ".data.map Char.toLower,
      " ".data.map Char.toLower ++
        (String.intercalate " " ds.tags).data.map Char.toLower,
      by simp [List.append_assoc]⟩

/-! ## Claim C1 — Discovery Engine `search` -/

/-- Claim C1 (status: code_bug).  The claim says `search` finally
"returns a successful result containing the accumulated items ...
together with facet data from the final response".  The code cannot:
`searchResult` is a `const` scoped to the `while` block
(`search-discovery.js` line 50) and the return object built after the
loop reads `searchResult.facets` (line 99), so every call throws
`ReferenceError` and the `catch` hands back the failure object — for
every catalog behaviour, query, threshold, result cap and page
sequence. -/
theorem search_always_returns_failure (client : Nat → Nat → SearchPage)
    (threshold : ℚ) (maxResults fuel : Nat) :
    (search client threshold maxResults fuel).success = false ∧
    search client threshold maxResults fuel
      = searchFailure "searchResult is not defined" :=
  ⟨rfl, rfl⟩

/-! ## Claim C2 — safety check before byte downloads -/

/-- Claim C2 (status: code_bug).  The claim says
`validateResourceDownload` is invoked on every attachment before any
byte download.  No caller of `validateResourceDownload` exists in the
source: `acquireResource` with byte inclusion goes straight to
`client.downloadResource`.  Evaluated at a cloud-metadata URL (with the
source's 50 MB default cap): the event trace is exactly one download
and contains no safety check, although `validateResourceDownload`
would have blocked this very attachment. -/
theorem acquireResource_downloads_without_safety_check
    (download : String → Except String (List Nat)) :
    (acquireResource (50 * 1024 * 1024) true download metadataEndpointResource).2
      = [AcqEvent.download "http://169.254.169.254/latest/meta-data"] ∧
    (∀ u, AcqEvent.safetyCheck u ∉
      (acquireResource (50 * 1024 * 1024) true download metadataEndpointResource).2) ∧
    (validateResourceDownload metadataEndpointResource).allowed = false := by
  refine ⟨rfl, ?_, by decide⟩
  intro u hu
  rw [show (acquireResource (50 * 1024 * 1024) true download metadataEndpointResource).2
      = [AcqEvent.download "http://169.254.169.254/latest/meta-data"] from rfl] at hu
  simp at hu

/-! ## Claim C4 — backoff bounds -/

/-- Claim C4, counterexample.  With the source defaults
`base = 1000`, `cap = 30000`, at attempt `k = 5` (so
`base * 2^k = 32000 > cap`) and the admissible jitter draw `u = 1/2`,
the delay is `33750 > 30000`: the delay can exceed the configured
maximum, because the cap is applied before the jitter. -/
theorem calculateBackoff_exceeds_configured_cap :
    ((-1 : ℚ) ≤ 1/2 ∧ (1/2 : ℚ) < 1) ∧
    calculateBackoff 5 1000 30000 (1/2) = 33750 ∧
    (30000 : ℤ) < calculateBackoff 5 1000 30000 (1/2) := by
  have h : calculateBackoff 5 1000 30000 (1/2) = 33750 := by
    show (⌊min ((1000:ℚ) * 2 ^ 5) 30000 +
      min ((1000:ℚ) * 2 ^ 5) 30000 * (1/4) * (1/2)⌋ : ℤ) = 33750
    rw [min_eq_right (by norm_num : (30000:ℚ) ≤ 1000 * 2 ^ 5)]
    rw [show ((30000:ℚ) + 30000 * (1/4) * (1/2)) = ((33750:ℤ):ℚ) by norm_num]
    exact Int.floor_intCast _
  exact ⟨⟨by norm_num, by norm_num⟩, h, by rw [h]; norm_num⟩

/-- Claim C4, amended.  For every attempt `k`, positive base and cap
and every jitter outcome `u ∈ [-1, 1)`, the delay lies strictly within
`(3/4·E − 1, 5/4·E)` where `E = min(base·2^k, cap)`: the ±25 % band is
around the capped exponential value (and flooring can shave up to one
unit off the lower edge), not around `base·2^k`, and the delay may rise
up to 25 % above the configured maximum. -/
theorem calculateBackoff_jitter_bounds (k : ℕ) (base cap u : ℚ)
    (hb : 0 < base) (hc : 0 < cap) (hu1 : -1 ≤ u) (hu2 : u < 1) :
    (3/4) * min (base * 2 ^ k) cap - 1 < (calculateBackoff k base cap u : ℚ) ∧
    (calculateBackoff k base cap u : ℚ) < (5/4) * min (base * 2 ^ k) cap := by
  have hE : (0:ℚ) < min (base * 2 ^ k) cap := lt_min (by positivity) hc
  set E := min (base * 2 ^ k) cap with hEdef
  have hcb : calculateBackoff k base cap u = ⌊E + E * (1/4) * u⌋ := rfl
  have h1 : (3/4) * E ≤ E + E * (1/4) * u := by nlinarith
  have h2 : E + E * (1/4) * u < (5/4) * E := by nlinarith
  have hfl : (⌊E + E * (1/4) * u⌋ : ℚ) ≤ E + E * (1/4) * u := Int.floor_le _
  have hfg : E + E * (1/4) * u - 1 < (⌊E + E * (1/4) * u⌋ : ℚ) :=
    Int.sub_one_lt_floor _
  rw [hcb]
  constructor <;> linarith

/-- Witness for `calculateBackoff_jitter_bounds` at
`k = 2, base = 1000, cap = 30000, u = 0`. -/
theorem calculateBackoff_jitter_bounds_witness :
    ((0:ℚ) < 1000) ∧ ((0:ℚ) < 30000) ∧ ((-1:ℚ) ≤ 0) ∧ ((0:ℚ) < 1) ∧
    ((3/4) * min ((1000:ℚ) * 2 ^ 2) 30000 - 1 <
        (calculateBackoff 2 1000 30000 0 : ℚ) ∧
      (calculateBackoff 2 1000 30000 0 : ℚ) <
        (5/4) * min ((1000:ℚ) * 2 ^ 2) 30000) :=
  ⟨by norm_num, by norm_num, by norm_num, by norm_num,
   calculateBackoff_jitter_bounds 2 1000 30000 0 (by norm_num) (by norm_num)
     (by norm_num) (by norm_num)⟩

/-! ## Claim C5 — "confidential" restriction verdict -/

/-- Claim C5, counterexample.  The claim says every item whose
description contains "confidential" gets the keyword "confidential"
recorded.  `checkRestrictions` records the *first* keyword of its fixed
list that the combined text contains, and "restricted" precedes
"confidential" in that list: this description contains "confidential",
the item is blocked, but the recorded keyword is "restricted". -/
theorem validateAccess_confidential_keyword_counterexample :
    strIncludes restrictedConfidentialDataset.description "confidential" = true ∧
    fullGov.blockRestrictedData = true ∧
    (validateDatasetAccess fullGov restrictedConfidentialDataset).allowed = false ∧
    (checkRestrictions restrictedConfidentialDataset).keyword = some "restricted" ∧
    (checkRestrictions restrictedConfidentialDataset).keyword ≠ some "confidential" := by
  decide

/-- Claim C5, amended.  With restriction blocking enabled, an item
whose description contains "confidential" is always blocked
(`allowed = false`, for every licence/PII flag setting); the recorded
keyword is "confidential" provided no earlier keyword of the fixed
list ("internal-use", "restricted") occurs in the item's combined
title/description/tag text. -/
theorem validateAccess_confidential_blocks (cfg : GovConfig) (ds : DatasetRaw)
    (hblock : cfg.blockRestrictedData = true)
    (h1 : strIncludes ds.description "confidential" = true)
    (h2 : strIncludes (datasetText ds) "internal-use" = false)
    (h3 : strIncludes (datasetText ds) "restricted" = false) :
    (validateDatasetAccess cfg ds).allowed = false ∧
    (checkRestrictions ds).keyword = some "confidential" := by
  have h1' : strIncludes (datasetText ds) "confidential" = true :=
    strIncludes_datasetText_of_description (by decide) h1
  have hck : (checkRestrictions ds).keyword = some "confidential" ∧
      (checkRestrictions ds).allowed = false := by
    unfold checkRestrictions restrictedKeywords
    rw [List.find?_cons_of_neg _ (by rw [h2]; exact Bool.false_ne_true),
        List.find?_cons_of_neg _ (by rw [h3]; exact Bool.false_ne_true),
        List.find?_cons_of_pos _ h1']
    exact ⟨rfl, rfl⟩
  refine ⟨?_, hck.1⟩
  simp [validateDatasetAccess, hblock, hck.2]

/-- Witness for `validateAccess_confidential_blocks`. -/
theorem validateAccess_confidential_blocks_witness :
    blockOnlyGov.blockRestrictedData = true ∧
    strIncludes confidentialDataset.description "confidential" = true ∧
    strIncludes (datasetText confidentialDataset) "internal-use" = false ∧
    strIncludes (datasetText confidentialDataset) "restricted" = false ∧
    ((validateDatasetAccess blockOnlyGov confidentialDataset).allowed = false ∧
      (checkRestrictions confidentialDataset).keyword = some "confidential") :=
  ⟨rfl, by decide, by decide, by decide,
   validateAccess_confidential_blocks blockOnlyGov confidentialDataset rfl
     (by decide) (by decide) (by decide)⟩

/-! ## Claim C6 — `searchByIds` per-id outcomes -/

/-- Claim C6 (status: confirmed).  `searchByIds` returns exactly one
record per id, in input order (`result[i]` is the outcome for
`ids[i]`); a fetched id yields a `found` record carrying the formatted
descriptor fields, a failing id yields a `failed` record carrying only
the id and the error; the function is total for every `fetch`, so one
failing id never aborts the batch. -/
theorem searchByIds_per_id_outcomes
    (fetch : String → Except String DatasetRaw) (ids : List String) :
    (searchByIds fetch ids).length = ids.length ∧
    (∀ i : Nat, (searchByIds fetch ids)[i]? = (ids[i]?).map (searchOneById fetch)) ∧
    (∀ id ds, fetch id = .ok ds → searchOneById fetch id
      = .found (formatDatasetMetadata ds) (formatResources ds.resources)) ∧
    (∀ id e, fetch id = .error e → searchOneById fetch id = .failed id e) := by
  refine ⟨by simp [searchByIds], fun i => by simp [searchByIds],
    fun id ds h => ?_, fun id e h => ?_⟩
  · simp [searchOneById, h]
  · simp [searchOneById, h]

/-- Witness for `searchByIds_per_id_outcomes` on
`["good-id", "missing-id"]`. -/
theorem searchByIds_per_id_outcomes_witness :
    (searchByIds fetchExample ["good-id", "missing-id"]).length = 2 ∧
    searchOneById fetchExample "good-id"
      = .found (formatDatasetMetadata goodDataset)
          (formatResources goodDataset.resources) ∧
    searchOneById fetchExample "missing-id"
      = .failed "missing-id" "Resource not found." :=
  ⟨(searchByIds_per_id_outcomes fetchExample ["good-id", "missing-id"]).1,
   (searchByIds_per_id_outcomes fetchExample ["good-id", "missing-id"]).2.2.1
     "good-id" goodDataset rfl,
   (searchByIds_per_id_outcomes fetchExample ["good-id", "missing-id"]).2.2.2
     "missing-id" "Resource not found." rfl⟩

/-! ## Claim C7 — idempotence of `redactPII`

Support lemmas first: the behaviour of the three replacement scans on
texts of the shape `⟨10 digits⟩ ' ' ⟨letters⟩@⟨letters⟩.⟨letters⟩`
(where "letters" are non-digit word characters), culminating in
`redactPII_family_shape`: redaction maps every such text to
`"XXXXXXXXXX email@redacted.com"`. -/

theorem plainLetter_word {ch : Char} (h : plainLetter ch = true) :
    isWordChar ch = true := by
  simp [plainLetter] at h
  exact h.1

theorem plainLetter_not_digit {ch : Char} (h : plainLetter ch = true) :
    ch.isDigit = false := by
  simp [plainLetter] at h
  exact h.2

theorem plainLetter_emailClass {ch : Char} (h : plainLetter ch = true) :
    emailClass ch = true := by
  simp [emailClass, plainLetter_word h]

theorem plainLetter_ne_dot {ch : Char} (h : plainLetter ch = true) : ch ≠ '.' := by
  intro heq
  rw [heq] at h
  exact absurd h (by decide)

theorem digit_word {ch : Char} (h : ch.isDigit = true) : isWordChar ch = true := by
  simp [isWordChar, Char.isAlphanum, h]

theorem digit_emailClass {ch : Char} (h : ch.isDigit = true) : emailClass ch = true := by
  simp [emailClass, digit_word h]

theorem stepNone {tryM : Bool → List Char → Option (Nat × List Char)}
    {prevW : Bool} {c : Char} {cs : List Char}
    (h : tryM prevW (c :: cs) = none) :
    replaceScan tryM 0 prevW (c :: cs) = c :: replaceScan tryM 0 (isWordChar c) cs := by
  simp [replaceScan, h]

theorem stepSome {tryM : Bool → List Char → Option (Nat × List Char)}
    {prevW : Bool} {c : Char} {cs : List Char} {len : Nat} {repl : List Char}
    (h : tryM prevW (c :: cs) = some (len, repl)) :
    replaceScan tryM 0 prevW (c :: cs)
      = repl ++ replaceScan tryM (len - 1) (isWordChar c) cs := by
  simp [replaceScan, h]

theorem replaceScan_skip_all (tryM : Bool → List Char → Option (Nat × List Char)) :
    ∀ (l : List Char) (skip : Nat) (prev : Bool), l.length ≤ skip →
      replaceScan tryM skip prev l = [] := by
  intro l
  induction l with
  | nil => intro skip prev _; simp [replaceScan]
  | cons x xs ih =>
    intro skip prev h
    cases skip with
    | zero => simp at h
    | succ k =>
      show replaceScan tryM (k + 1) prev (x :: xs) = []
      rw [replaceScan]
      exact ih k (isWordChar x) (by simpa using h)

theorem replaceScan_word_run (tryM : Bool → List Char → Option (Nat × List Char))
    (hM : ∀ (x : Char) (l' : List Char), isWordChar x = true → tryM true (x :: l') = none) :
    ∀ (l rest : List Char), (∀ ch ∈ l, isWordChar ch = true) →
      replaceScan tryM 0 true (l ++ rest) = l ++ replaceScan tryM 0 true rest := by
  intro l
  induction l with
  | nil => intro rest _; rfl  -- nil append
  | cons x xs ih =>
    intro rest h
    have hx : isWordChar x = true := h x (by simp)
    rw [List.cons_append, stepNone (hM x _ hx), hx, ih rest (fun ch hch => h ch (by simp [hch]))]
    rfl

theorem replaceScan_skip_run (tryM : Bool → List Char → Option (Nat × List Char)) :
    ∀ (l rest : List Char) (prev : Bool), l ≠ [] →
      (∀ ch ∈ l, isWordChar ch = true) →
      replaceScan tryM l.length prev (l ++ rest) = replaceScan tryM 0 true rest := by
  intro l
  induction l with
  | nil => intro rest prev h _; exact absurd rfl h
  | cons x xs ih =>
    intro rest prev _ h
    have hx : isWordChar x = true := h x (by simp)
    show replaceScan tryM (xs.length + 1) prev (x :: (xs ++ rest)) = _
    rw [replaceScan]
    cases hxs : xs with
    | nil => rw [hx]; rfl
    | cons y ys =>
      rw [← hxs, ih rest (isWordChar x) (by simp [hxs]) (fun ch hch => h ch (by simp [hch]))]

theorem digitRunBoundary_false_of_head {n : Nat} (hn : 1 ≤ n) {x : Char}
    (hx : x.isDigit = false) (l : List Char) :
    digitRunBoundary n (x :: l) = false := by
  cases n with
  | zero => omega
  | succ m => simp [digitRunBoundary, List.take_succ_cons, hx]

theorem tryDigits_of_prevW (n : Nat) (l : List Char) : tryDigits n true l = none := by
  simp [tryDigits]

theorem tryDigits_of_head_not_digit {n : Nat} (hn : 1 ≤ n) {x : Char}
    (hx : x.isDigit = false) (l : List Char) (prev : Bool) :
    tryDigits n prev (x :: l) = none := by
  simp [tryDigits, digitRunBoundary_false_of_head hn hx]

theorem tryEmailRepl_of_word_prevW {x : Char} (hx : isWordChar x = true)
    (l : List Char) : tryEmailRepl true (x :: l) = none := by
  simp [tryEmailRepl, tryEmailLen, hx]

theorem tryEmailRepl_space (prev : Bool) (l : List Char) :
    tryEmailRepl prev (' ' :: l) = none := by
  simp [tryEmailRepl, tryEmailLen, show emailClass ' ' = false from rfl]

theorem tryEmailRepl_digits_space {d : List Char}
    (hd : ∀ ch ∈ d, ch.isDigit = true) (hd0 : d ≠ []) (rest : List Char)
    (prev : Bool) :
    tryEmailRepl prev (d ++ ' ' :: rest) = none := by
  obtain ⟨x, xs, rfl⟩ := List.exists_cons_of_ne_nil hd0
  rw [List.cons_append]
  simp only [tryEmailRepl, tryEmailLen]
  split
  · next hcond =>
    have hA : (x :: (xs ++ ' ' :: rest)).takeWhile emailClass = x :: xs := by
      rw [show x :: (xs ++ ' ' :: rest) = (x :: xs) ++ ' ' :: rest from rfl]
      rw [List.takeWhile_append_of_pos (fun a ha => digit_emailClass (hd a ha))]
      simp [show emailClass ' ' = false from rfl]
    rw [hA]
    rw [show ((x :: (xs ++ ' ' :: rest)).drop (x :: xs).length)
        = ((x :: xs) ++ ' ' :: rest).drop (x :: xs).length from rfl]
    rw [List.drop_left]
    simp
  · rfl

theorem findDot_shape {b c : List Char}
    (hc : ∀ ch ∈ c, plainLetter ch = true)
    (hb0 : b ≠ []) (hc0 : c ≠ []) :
    findDot (b ++ '.' :: c) = some b.length := by
  obtain ⟨c0, cs, rfl⟩ := List.exists_cons_of_ne_nil hc0
  unfold findDot
  have hlen : (b ++ '.' :: c0 :: cs).length = (b.length + 1) + (c0 :: cs).length := by
    simp
    omega
  rw [hlen, List.range_add, List.reverse_append, List.find?_append]
  have h1 : (((List.range (c0 :: cs).length).map ((b.length + 1) + ·)).reverse).find?
      (fun d => decide (1 ≤ d) &&
        decide ((b ++ '.' :: c0 :: cs)[d]? = some '.') &&
        (match (b ++ '.' :: c0 :: cs)[d+1]? with
         | some w => isWordChar w
         | none => false)) = none := by
    rw [List.find?_eq_none]
    intro d hd
    rw [List.mem_reverse, List.mem_map] at hd
    obtain ⟨j, hj, rfl⟩ := hd
    rw [List.mem_range] at hj
    have hidx : (b ++ '.' :: c0 :: cs)[b.length + 1 + j]? = ((c0 :: cs)[j]?) := by
      rw [List.getElem?_append_right (by omega)]
      have : b.length + 1 + j - b.length = j + 1 := by omega
      rw [this]
      simp
    have hget : (c0 :: cs)[j]? = some ((c0 :: cs)[j]) := List.getElem?_eq_getElem hj
    have hmem : (c0 :: cs)[j] ∈ (c0 :: cs) := List.getElem_mem hj
    have hne : (c0 :: cs)[j] ≠ '.' := plainLetter_ne_dot (hc _ hmem)
    simp [hidx, hget, hne]
  rw [h1]
  rw [List.range_succ, List.reverse_append]
  have hhd : ([b.length].reverse ++ (List.range b.length).reverse)
      = b.length :: (List.range b.length).reverse := by simp
  rw [hhd]
  rw [List.find?_cons_of_pos]
  · simp
  · have e1 : (b ++ '.' :: c0 :: cs)[b.length]? = some '.' := by
      rw [List.getElem?_append_right (Nat.le_refl _)]
      simp
    have e2 : (b ++ '.' :: c0 :: cs)[b.length + 1]? = some c0 := by
      rw [List.getElem?_append_right (by omega)]
      have : b.length + 1 - b.length = 1 := by omega
      rw [this]
      simp
    have e3 : (1 ≤ b.length) := List.length_pos.mpr hb0
    simp [e1, e2, e3, plainLetter_word (hc c0 (by simp))]

theorem takeWhile_of_all {p : Char → Bool} {l : List Char}
    (h : ∀ ch ∈ l, p ch = true) : l.takeWhile p = l := by
  rw [show l = l ++ [] from (List.append_nil l).symm,
    List.takeWhile_append_of_pos (by simpa using h)]
  simp

theorem tryEmailLen_shape {a b c : List Char}
    (ha : ∀ ch ∈ a, plainLetter ch = true) (hb : ∀ ch ∈ b, plainLetter ch = true)
    (hc : ∀ ch ∈ c, plainLetter ch = true)
    (ha0 : a ≠ []) (hb0 : b ≠ []) (hc0 : c ≠ []) :
    tryEmailLen false (a ++ '@' :: (b ++ '.' :: c))
      = some (a.length + 1 + (b.length + 1) + c.length) := by
  obtain ⟨x, xs, rfl⟩ := List.exists_cons_of_ne_nil ha0
  have hx : plainLetter x = true := ha x (by simp)
  have hcls : emailClass x = true := plainLetter_emailClass hx
  have hword : isWordChar x = true := plainLetter_word hx
  have hA : (x :: (xs ++ '@' :: (b ++ '.' :: c))).takeWhile emailClass = x :: xs := by
    rw [show x :: (xs ++ '@' :: (b ++ '.' :: c))
        = (x :: xs) ++ '@' :: (b ++ '.' :: c) from rfl]
    rw [List.takeWhile_append_of_pos (fun ch hch => plainLetter_emailClass (ha ch hch))]
    simp [show emailClass '@' = false from rfl]
  have hdropA : (x :: (xs ++ '@' :: (b ++ '.' :: c))).drop (x :: xs).length
      = '@' :: (b ++ '.' :: c) := by
    rw [show x :: (xs ++ '@' :: (b ++ '.' :: c))
        = (x :: xs) ++ '@' :: (b ++ '.' :: c) from rfl]
    exact List.drop_left _ _
  have hR : (b ++ '.' :: c).takeWhile emailClass = b ++ '.' :: c := by
    refine takeWhile_of_all fun ch hch => ?_
    rw [List.mem_append] at hch
    rcases hch with hch | hch
    · exact plainLetter_emailClass (hb ch hch)
    · rcases List.mem_cons.mp hch with rfl | hch
      · rfl
      · exact plainLetter_emailClass (hc ch hch)
  have hdropR : (b ++ '.' :: c).drop (b.length + 1) = c := by
    rw [show b ++ '.' :: c = (b ++ ['.']) ++ c by simp]
    rw [List.drop_left' (by simp)]
  have hW : c.takeWhile isWordChar = c :=
    takeWhile_of_all fun ch hch => plainLetter_word (hc ch hch)
  rw [List.cons_append]
  simp only [tryEmailLen, hcls, hword, hA, hdropA, hR, hdropR, hW,
    findDot_shape hc hb0 hc0]
  simp

theorem scan_block (tryM : Bool → List Char → Option (Nat × List Char))
    (hM : ∀ (y : Char) (l' : List Char), isWordChar y = true → tryM true (y :: l') = none)
    {x : Char} {xs rest : List Char} (hx : isWordChar x = true)
    (hxs : ∀ ch ∈ xs, isWordChar ch = true)
    (hhd : tryM false (x :: (xs ++ rest)) = none) :
    replaceScan tryM 0 false ((x :: xs) ++ rest)
      = (x :: xs) ++ replaceScan tryM 0 true rest := by
  rw [List.cons_append, stepNone hhd, hx, replaceScan_word_run tryM hM xs rest hxs]
  rfl

theorem space_step (tryM : Bool → List Char → Option (Nat × List Char))
    {rest : List Char} (hsp : tryM true (' ' :: rest) = none) :
    replaceScan tryM 0 true (' ' :: rest) = ' ' :: replaceScan tryM 0 false rest := by
  rw [stepNone hsp, show isWordChar ' ' = false from rfl]

theorem scan_tail_block (tryM : Bool → List Char → Option (Nat × List Char))
    (hM : ∀ (y : Char) (l' : List Char), isWordChar y = true → tryM true (y :: l') = none)
    {x : Char} {xs : List Char} (hx : isWordChar x = true)
    (hxs : ∀ ch ∈ xs, isWordChar ch = true)
    (hhd : tryM false (x :: xs) = none) :
    replaceScan tryM 0 false (x :: xs) = x :: xs := by
  have h0 : replaceScan tryM 0 false ((x :: xs) ++ ([] : List Char))
      = (x :: xs) ++ replaceScan tryM 0 true [] := by
    refine scan_block tryM hM hx hxs ?_
    rw [List.append_nil]
    exact hhd
  rw [List.append_nil] at h0
  rw [h0, show replaceScan tryM 0 true [] = [] by simp [replaceScan], List.append_nil]

theorem digitScan12_shape {d a b c : List Char}
    (hd : ∀ ch ∈ d, ch.isDigit = true) (hdlen : d.length = 10)
    (ha : ∀ ch ∈ a, plainLetter ch = true) (ha0 : a ≠ [])
    (hb : ∀ ch ∈ b, plainLetter ch = true) (hb0 : b ≠ [])
    (hc : ∀ ch ∈ c, plainLetter ch = true) (hc0 : c ≠ []) :
    replaceScan (tryDigits 12) 0 false (d ++ ' ' :: (a ++ '@' :: (b ++ '.' :: c)))
      = d ++ ' ' :: (a ++ '@' :: (b ++ '.' :: c)) := by
  obtain ⟨x, xs, rfl⟩ := List.exists_cons_of_ne_nil
    (show d ≠ [] by intro h; rw [h] at hdlen; simp at hdlen)
  obtain ⟨a0, as, rfl⟩ := List.exists_cons_of_ne_nil ha0
  obtain ⟨b0, bs, rfl⟩ := List.exists_cons_of_ne_nil hb0
  obtain ⟨c0, cs, rfl⟩ := List.exists_cons_of_ne_nil hc0
  have hdword : ∀ ch ∈ x :: xs, isWordChar ch = true :=
    fun ch hch => digit_word (hd ch hch)
  have h12 : ∀ r : List Char,
      tryDigits 12 false ((x :: xs) ++ ' ' :: r) = none := by
    intro r
    have htake : ((x :: xs) ++ ' ' :: r).take 12
        = (x :: xs) ++ (' ' :: r).take 2 := by
      rw [show (12 : Nat) = (x :: xs).length + 2 by rw [hdlen], List.take_append]
    have hbd : digitRunBoundary 12 (x :: (xs ++ ' ' :: r)) = false := by
      rw [← List.cons_append]
      unfold digitRunBoundary
      rw [htake]
      simp [List.all_append, List.take_succ_cons,
        show (' ').isDigit = false from rfl]
    simp [tryDigits, hbd]
  rw [scan_block (tryDigits 12) (fun y l' _ => tryDigits_of_prevW 12 (y :: l'))
      (digit_word (hd x (by simp))) (fun ch hch => hdword ch (by simp [hch]))
      (h12 _),
    space_step _ (tryDigits_of_prevW 12 _),
    scan_block (tryDigits 12) (fun y l' _ => tryDigits_of_prevW 12 (y :: l'))
      (plainLetter_word (ha a0 (by simp)))
      (fun ch hch => plainLetter_word (ha ch (by simp [hch])))
      (tryDigits_of_head_not_digit (by omega)
        (plainLetter_not_digit (ha a0 (by simp))) _ _),
    stepNone (tryDigits_of_prevW 12 _),
    show isWordChar '@' = false from rfl,
    scan_block (tryDigits 12) (fun y l' _ => tryDigits_of_prevW 12 (y :: l'))
      (plainLetter_word (hb b0 (by simp)))
      (fun ch hch => plainLetter_word (hb ch (by simp [hch])))
      (tryDigits_of_head_not_digit (by omega)
        (plainLetter_not_digit (hb b0 (by simp))) _ _),
    stepNone (tryDigits_of_prevW 12 _),
    show isWordChar '.' = false from rfl,
    scan_tail_block (tryDigits 12) (fun y l' _ => tryDigits_of_prevW 12 (y :: l'))
      (plainLetter_word (hc c0 (by simp)))
      (fun ch hch => plainLetter_word (hc ch (by simp [hch])))
      (tryDigits_of_head_not_digit (by omega)
        (plainLetter_not_digit (hc c0 (by simp))) _ _)]

theorem emailScan_shape {d a b c : List Char}
    (hd : ∀ ch ∈ d, ch.isDigit = true) (hdlen : d.length = 10)
    (ha : ∀ ch ∈ a, plainLetter ch = true) (ha0 : a ≠ [])
    (hb : ∀ ch ∈ b, plainLetter ch = true) (hb0 : b ≠ [])
    (hc : ∀ ch ∈ c, plainLetter ch = true) (hc0 : c ≠ []) :
    replaceScan tryEmailRepl 0 false (d ++ ' ' :: (a ++ '@' :: (b ++ '.' :: c)))
      = d ++ ' ' :: emailPlaceholder := by
  have hd0 : d ≠ [] := by intro h; rw [h] at hdlen; simp at hdlen
  obtain ⟨x, xs, rfl⟩ := List.exists_cons_of_ne_nil hd0
  obtain ⟨a0, as, rfl⟩ := List.exists_cons_of_ne_nil ha0
  have hmatch : tryEmailRepl false ((a0 :: as) ++ '@' :: (b ++ '.' :: c))
      = some ((a0 :: as).length + 1 + (b.length + 1) + c.length, emailPlaceholder) := by
    rw [show tryEmailRepl false ((a0 :: as) ++ '@' :: (b ++ '.' :: c))
        = (tryEmailLen false ((a0 :: as) ++ '@' :: (b ++ '.' :: c))).map
            (fun len => (len, emailPlaceholder)) from rfl]
    rw [tryEmailLen_shape ha hb hc ha0 hb0 hc0]
    rfl
  have hstep : replaceScan tryEmailRepl 0 false ((a0 :: as) ++ '@' :: (b ++ '.' :: c))
      = emailPlaceholder := by
    rw [List.cons_append, stepSome (by rw [← List.cons_append]; exact hmatch)]
    rw [replaceScan_skip_all _ _ _ _ (by simp [List.length_append]; omega)]
    rw [List.append_nil]
  rw [scan_block tryEmailRepl (fun y l' hy => tryEmailRepl_of_word_prevW hy l')
      (digit_word (hd x (by simp))) (fun ch hch => digit_word (hd ch (by simp [hch])))
      (tryEmailRepl_digits_space hd hd0 _ _),
    space_step _ (tryEmailRepl_space _ _), hstep]

theorem digitScan10_shape {d : List Char}
    (hd : ∀ ch ∈ d, ch.isDigit = true) (hdlen : d.length = 10) :
    replaceScan (tryDigits 10) 0 false (d ++ ' ' :: emailPlaceholder)
      = List.replicate 10 'X' ++ (' ' :: emailPlaceholder) := by
  have hd0 : d ≠ [] := by intro h; rw [h] at hdlen; simp at hdlen
  obtain ⟨x, xs, rfl⟩ := List.exists_cons_of_ne_nil hd0
  have hmatch : tryDigits 10 false ((x :: xs) ++ ' ' :: emailPlaceholder)
      = some (10, List.replicate 10 'X') := by
    have hbd : digitRunBoundary 10 (x :: (xs ++ ' ' :: emailPlaceholder)) = true := by
      rw [← List.cons_append]
      unfold digitRunBoundary
      rw [List.take_left' hdlen, List.drop_left' hdlen, hdlen]
      simp [List.all_eq_true.mpr hd, show isWordChar ' ' = false from rfl]
    simp [tryDigits, hbd]
  rw [List.cons_append, stepSome (by rw [← List.cons_append]; exact hmatch)]
  rw [digit_word (hd x (by simp))]
  have hskip : replaceScan (tryDigits 10) (10 - 1) true (xs ++ ' ' :: emailPlaceholder)
      = replaceScan (tryDigits 10) 0 true (' ' :: emailPlaceholder) := by
    rw [show (10 - 1 : Nat) = xs.length by simp at hdlen; omega]
    exact replaceScan_skip_run _ xs _ true
      (by intro h; rw [h] at hdlen; simp at hdlen)
      (fun ch hch => digit_word (hd ch (by simp [hch])))
  rw [hskip, space_step _ (tryDigits_of_prevW 10 _),
    show replaceScan (tryDigits 10) 0 false emailPlaceholder = emailPlaceholder by decide]

theorem redactPII_family_shape {d a b c : List Char}
    (hd : ∀ ch ∈ d, ch.isDigit = true) (hdlen : d.length = 10)
    (ha : ∀ ch ∈ a, plainLetter ch = true) (ha0 : a ≠ [])
    (hb : ∀ ch ∈ b, plainLetter ch = true) (hb0 : b ≠ [])
    (hc : ∀ ch ∈ c, plainLetter ch = true) (hc0 : c ≠ []) :
    redactPII ⟨d ++ ' ' :: (a ++ '@' :: (b ++ '.' :: c))⟩
      = "XXXXXXXXXX email@redacted.com" := by
  have hd0 : d ≠ [] := by intro h; rw [h] at hdlen; simp at hdlen
  have hne : (⟨d ++ ' ' :: (a ++ '@' :: (b ++ '.' :: c))⟩ : String) ≠ "" := by
    obtain ⟨x, xs, rfl⟩ := List.exists_cons_of_ne_nil hd0
    intro h
    have h2 : ((⟨(x :: xs) ++ ' ' :: (a ++ '@' :: (b ++ '.' :: c))⟩ : String)).data
        = ("" : String).data := by rw [h]
    simp at h2
  unfold redactPII
  rw [if_neg hne]
  show (⟨replaceScan (tryDigits 10) 0 false
      (replaceScan tryEmailRepl 0 false
        (replaceScan (tryDigits 12) 0 false
          (d ++ ' ' :: (a ++ '@' :: (b ++ '.' :: c)))))⟩ : String) = _
  rw [digitScan12_shape hd hdlen ha ha0 hb hb0 hc hc0,
    emailScan_shape hd hdlen ha ha0 hb hb0 hc hc0,
    digitScan10_shape hd hdlen]
  decide

/-- Claim C7, counterexample.  The text contains a 10-digit sequence
and email addresses, yet redaction is not idempotent: the two email
matches `foo@bar.com` and `-x@y.com` (a match may begin at `'-'`,
which satisfies `\b` after a word character and belongs to `[\w\.-]`)
are replaced adjacently, and on the second pass the regex greedily
matches `email@redacted.comemail` across the junction, changing the
string again. -/
theorem redactPII_not_idempotent :
    testScan (testDigitRun 10) false ("1234567890 foo@bar.com-x@y.com").data = true ∧
    testScan testEmail false ("1234567890 foo@bar.com-x@y.com").data = true ∧
    redactPII "1234567890 foo@bar.com-x@y.com"
      = "XXXXXXXXXX email@redacted.comemail@redacted.com" ∧
    redactPII (redactPII "1234567890 foo@bar.com-x@y.com")
      = "XXXXXXXXXX email@redacted.com@redacted.com" ∧
    redactPII (redactPII "1234567890 foo@bar.com-x@y.com")
      ≠ redactPII "1234567890 foo@bar.com-x@y.com" := by
  decide

/-- Claim C7, amended.  Redaction is not idempotent for every text
containing a 10-digit sequence and an email address (see the
counterexample, where two email matches are replaced adjacently and
re-redaction merges them).  It is idempotent on the whole family of
texts `⟨10 digits⟩ ' ' ⟨letters⟩@⟨letters⟩.⟨letters⟩` — a 10-digit
sequence together with one email whose match does not abut another:
redaction maps every such text to `"XXXXXXXXXX email@redacted.com"`
and a second redaction is a no-op. -/
theorem redactPII_idempotent_family (d a b c : List Char)
    (hd : ∀ ch ∈ d, ch.isDigit = true) (hdlen : d.length = 10)
    (ha : ∀ ch ∈ a, plainLetter ch = true) (ha0 : a ≠ [])
    (hb : ∀ ch ∈ b, plainLetter ch = true) (hb0 : b ≠ [])
    (hc : ∀ ch ∈ c, plainLetter ch = true) (hc0 : c ≠ []) :
    redactPII ⟨d ++ ' ' :: (a ++ '@' :: (b ++ '.' :: c))⟩
      = "XXXXXXXXXX email@redacted.com" ∧
    redactPII (redactPII ⟨d ++ ' ' :: (a ++ '@' :: (b ++ '.' :: c))⟩)
      = redactPII ⟨d ++ ' ' :: (a ++ '@' :: (b ++ '.' :: c))⟩ := by
  have h1 := redactPII_family_shape hd hdlen ha ha0 hb hb0 hc hc0
  refine ⟨h1, ?_⟩
  rw [h1]
  decide

/-- Witness for `redactPII_idempotent_family` at
`"1234567890 foo@bar.com"`. -/
theorem redactPII_idempotent_family_witness :
    redactPII "1234567890 foo@bar.com" = "XXXXXXXXXX email@redacted.com" ∧
    redactPII (redactPII "1234567890 foo@bar.com")
      = redactPII "1234567890 foo@bar.com" :=
  redactPII_idempotent_family ("1234567890").data ("foo").data ("bar").data ("com").data
    (by decide) (by decide) (by decide) (by decide) (by decide) (by decide)
    (by decide) (by decide)

/-- A further concrete no-op exhibit for `redactPII`, with the email
separated from the rest by ordinary words. -/
theorem redactPII_idempotent_on_separated_text :
    testScan (testDigitRun 10) false ("1234567890 contact foo@bar.com").data = true ∧
    testScan testEmail false ("1234567890 contact foo@bar.com").data = true ∧
    redactPII (redactPII "1234567890 contact foo@bar.com")
      = redactPII "1234567890 contact foo@bar.com" := by
  decide

/-! ## Claim C8 — missing licence warns but never blocks -/

/-- Claim C8 (status: confirmed).  With the licence check enabled, an
item declaring no licence and passing the restriction check is allowed
with a non-empty warning list containing the "no license" warning; and
(last conjunct) `allowed` is determined by the restriction check alone,
so the licence check can never block an item. -/
theorem validateAccess_no_license_warns (cfg : GovConfig) (ds : DatasetRaw)
    (hlic : cfg.respectLicenses = true)
    (ht : ds.license_title = "") (hi : ds.license_id = "")
    (hr : (checkRestrictions ds).allowed = true) :
    (validateDatasetAccess cfg ds).allowed = true ∧
    noLicenseWarning ∈ (validateDatasetAccess cfg ds).warnings ∧
    (validateDatasetAccess cfg ds).warnings ≠ [] ∧
    (validateDatasetAccess cfg ds).allowed
      = !(cfg.blockRestrictedData && !(checkRestrictions ds).allowed) := by
  have hlc : (checkLicense ds).restrictive = true ∧
      (checkLicense ds).warning = noLicenseWarning := by
    unfold checkLicense
    rw [ht, hi]
    exact ⟨rfl, rfl⟩
  refine ⟨?_, ?_, ?_, ?_⟩ <;>
    simp [validateDatasetAccess, hlic, hr, hlc.1, hlc.2, noLicenseWarning]

/-- Witness for `validateAccess_no_license_warns` with every governance
flag enabled. -/
theorem validateAccess_no_license_warns_witness :
    fullGov.respectLicenses = true ∧
    unlicensedDataset.license_title = "" ∧
    unlicensedDataset.license_id = "" ∧
    (checkRestrictions unlicensedDataset).allowed = true ∧
    ((validateDatasetAccess fullGov unlicensedDataset).allowed = true ∧
      noLicenseWarning ∈ (validateDatasetAccess fullGov unlicensedDataset).warnings ∧
      (validateDatasetAccess fullGov unlicensedDataset).warnings ≠ [] ∧
      (validateDatasetAccess fullGov unlicensedDataset).allowed
        = !(fullGov.blockRestrictedData &&
            !(checkRestrictions unlicensedDataset).allowed)) :=
  ⟨rfl, rfl, rfl, by decide,
   validateAccess_no_license_warns fullGov unlicensedDataset rfl rfl rfl (by decide)⟩

/-! ## Claim C9 — attachment selection in `acquireDataset` -/

/-- Claim C9, counterexample.  The claim quantifies over every
`attachmentLimit L`; at `L = 0` the source computes
`options.resourceLimit || this.resourceLimit` (`0` is falsy), falls
back to the constructor default `3` and returns 3 outcomes on a
5-attachment item instead of `min(0, 5) = 0`. -/
theorem acquireDataset_zero_limit_counterexample :
    (acquireDatasetResources 3 0 acquireAlwaysOk demoResources).length = 3 ∧
    min 0 demoResources.length = 0 ∧
    (acquireDatasetResources 3 0 acquireAlwaysOk demoResources).length
      ≠ min 0 demoResources.length := by
  decide

/-- Claim C9, amended.  For every `attachmentLimit ≥ 1`,
`acquireDataset` produces exactly the per-attachment outcomes of the
first `min(attachmentLimit, available)` attachments, in their declared
order, each computed independently by the per-attachment step (whose
`catch` turns one attachment's failure into an error outcome without
touching the others); a zero/absent limit instead falls back to the
configured default. -/
theorem acquireDataset_selects_first_min_limit (cfgLimit optLimit : Nat)
    (acquire : Resource → Except String ResourceOutcome)
    (resources : List Resource) (h : 1 ≤ optLimit) :
    acquireDatasetResources cfgLimit optLimit acquire resources
      = (resources.take (min optLimit resources.length)).map (acquireStep acquire) ∧
    (acquireDatasetResources cfgLimit optLimit acquire resources).length
      = min optLimit resources.length := by
  have hjs : jsOrNat optLimit cfgLimit = optLimit := by
    unfold jsOrNat
    rw [if_neg (by omega)]
  constructor
  · unfold acquireDatasetResources
    rw [hjs]
  · unfold acquireDatasetResources
    rw [hjs, List.length_map, List.length_take]
    omega

/-- Witness for `acquireDataset_selects_first_min_limit`: the spec's
`attachmentLimit = 2` on 5 attachments, with the second failing. -/
theorem acquireDataset_selects_first_min_limit_witness :
    1 ≤ 2 ∧
    (acquireDatasetResources 3 2 acquireFailingSecond demoResources
      = (demoResources.take (min 2 demoResources.length)).map
          (acquireStep acquireFailingSecond) ∧
      (acquireDatasetResources 3 2 acquireFailingSecond demoResources).length
        = min 2 demoResources.length) :=
  ⟨by decide,
   acquireDataset_selects_first_min_limit 3 2 acquireFailingSecond demoResources
     (by decide)⟩

/-! ## Claim C10 — detector/redactor pattern gap -/

/-- Claim C10 (status: confirmed).  `detectPII` also matches PAN-style
(`ABCDE1234F`) and SSN-style (`123-45-6789`) patterns, which
`redactPII` (12-digit runs, emails, 10-digit runs only) leaves
untouched: there is a text fixed by redaction that the detector still
flags — redaction does not neutralise every pattern the scanner
detects. -/
theorem redactPII_does_not_neutralize_detectPII :
    (∃ t : String, redactPII t = t ∧ detectPII (redactPII t) = true) ∧
    (redactPII "ABCDE1234F" = "ABCDE1234F" ∧ detectPII "ABCDE1234F" = true) ∧
    (redactPII "123-45-6789" = "123-45-6789" ∧ detectPII "123-45-6789" = true) := by
  refine ⟨⟨"ABCDE1234F", by decide, by decide⟩, by decide, by decide⟩

end DataGovIN
